import Mathlib

/-!
Verification development for the AutoVRS backend (BE-AutoVRS).

This file shallowly embeds the parts of the Python source needed by the
checked properties:

* `postprocess_detections` and its helpers, from
  `src/services/defect_detection_service.py` (detection decoding, coordinate
  clamping, confidence filtering, non-maximum suppression);
* `resize_to_square`, `capture_image` and `capture_with_detection_analysis`,
  from `src/services/camera_service.py`;
* the `WebSocketManager` connect/disconnect/broadcast/stream-loop state
  machine, from `src/services/websocket_service.py`.

Python floats are embedded as rationals; Python `int()` truncation toward
zero is `pyTrunc`; the asyncio task spawned by `disconnect` is made explicit
as a count of pending, not-yet-executed stop tasks.
-/

/-! ## Detection decoding (`defect_detection_service.postprocess_detections`) -/

/-- Python `int(q)`: truncation of a float toward zero. -/
def pyTrunc (q : ℚ) : ℤ := if 0 ≤ q then ⌊q⌋ else ⌈q⌉

/-- The clamp `max(0, min(v, bound))` applied per coordinate in
`postprocess_detections` lines 137-140. -/
def clampTo (v : ℤ) (bound : ℕ) : ℤ := max 0 (min v (bound : ℤ))

/-- One decoded detection dictionary, as appended at
`defect_detection_service.py:144-150`. -/
structure Detection where
  x1 : ℤ
  y1 : ℤ
  x2 : ℤ
  y2 : ℤ
  confidence : ℚ
  class_id : ℕ
  class_name : String
  color : ℕ × ℕ × ℕ
deriving DecidableEq, Repr

/-- The `defect_class_names` dictionary (keys 0..7). -/
def defect_class_names (i : ℕ) : Option String :=
  match i with
  | 0 => some "short_circuit"
  | 1 => some "open_circuit"
  | 2 => some "missing_component"
  | 3 => some "damaged_track"
  | 4 => some "wrong_component"
  | 5 => some "solder_defect"
  | 6 => some "crack"
  | 7 => some "scratch"
  | _ => none

/-- The `defect_colors` dictionary (keys 0..7). -/
def defect_colors (i : ℕ) : Option (ℕ × ℕ × ℕ) :=
  match i with
  | 0 => some (0, 0, 255)
  | 1 => some (255, 0, 0)
  | 2 => some (0, 255, 255)
  | 3 => some (255, 0, 255)
  | 4 => some (128, 0, 128)
  | 5 => some (0, 165, 255)
  | 6 => some (0, 255, 0)
  | 7 => some (255, 255, 0)
  | _ => none

/-- Helper for `argmax`: scans the remaining scores keeping the index of the
first maximal element seen so far (as `np.argmax` does). -/
def argmaxAux : List ℚ → ℕ → ℕ → ℚ → ℕ
  | [], _, best, _ => best
  | x :: xs, i, best, bestVal =>
      if bestVal < x then argmaxAux xs (i + 1) i x
      else argmaxAux xs (i + 1) best bestVal

/-- Embeds `np.argmax` over a score vector: index of the first maximal entry
(0 on an empty vector). -/
def argmax : List ℚ → ℕ
  | [] => 0
  | x :: xs => argmaxAux xs 1 0 x

/-- The per-candidate body of the loop at `defect_detection_service.py:119-150`:
take center-box parameters and class scores, arg-max the scores, filter by
confidence threshold and class-id range, convert to a clamped corner box. -/
def decodeCandidate (scale_x scale_y : ℚ) (ow oh : ℕ) (conf_threshold : ℚ)
    (row : List ℚ) : Option Detection :=
  let center_x := row.getD 0 0
  let center_y := row.getD 1 0
  let width := row.getD 2 0
  let height := row.getD 3 0
  let class_scores := row.drop 4
  let class_id := argmax class_scores
  let conf := class_scores.getD class_id 0
  if conf_threshold ≤ conf ∧ class_id < 8 then
    some { x1 := clampTo (pyTrunc ((center_x - width / 2) * scale_x)) ow
           y1 := clampTo (pyTrunc ((center_y - height / 2) * scale_y)) oh
           x2 := clampTo (pyTrunc ((center_x + width / 2) * scale_x)) ow
           y2 := clampTo (pyTrunc ((center_y + height / 2) * scale_y)) oh
           confidence := conf
           class_id := class_id
           class_name := (defect_class_names class_id).getD ("defect_" ++ toString class_id)
           color := (defect_colors class_id).getD (255, 255, 255) }
  else none

/-- Intersection-over-union of two corner boxes. -/
def iou (a b : Detection) : ℚ :=
  let ix1 := max a.x1 b.x1
  let iy1 := max a.y1 b.y1
  let ix2 := min a.x2 b.x2
  let iy2 := min a.y2 b.y2
  let inter : ℤ := max 0 (ix2 - ix1) * max 0 (iy2 - iy1)
  let areaA : ℤ := (a.x2 - a.x1) * (a.y2 - a.y1)
  let areaB : ℤ := (b.x2 - b.x1) * (b.y2 - b.y1)
  (inter : ℚ) / ((areaA : ℚ) + (areaB : ℚ) - (inter : ℚ))

/-- Confidence-descending order used to sort candidates before suppression. -/
def confGE (a b : Detection) : Prop := b.confidence ≤ a.confidence

instance : DecidableRel confGE := fun a b => inferInstanceAs (Decidable (b.confidence ≤ a.confidence))

instance : IsTotal Detection confGE := ⟨fun a b => (le_total b.confidence a.confidence)⟩

instance : IsTrans Detection confGE := ⟨fun _ _ _ h1 h2 => le_trans h2 h1⟩

/-- Modelled from the spec: the greedy suppression pass of §4.2 step 5.
The source delegates suppression to `cv2.dnn.NMSBoxes` (an external library
call at `defect_detection_service.py:158`); the spec describes it as: keep
the highest-confidence remaining box, discard every other box whose IoU with
it exceeds the threshold, repeat. This function is that greedy pass on an
already confidence-sorted list. -/
def nmsKeep (iouThreshold : ℚ) : ℕ → List Detection → List Detection
  | _, [] => []
  | 0, _ :: _ => []
  | fuel + 1, d :: rest =>
      d :: nmsKeep iouThreshold fuel (rest.filter fun e => decide (iou d e ≤ iouThreshold))

/-- Modelled from the spec: full suppression of §4.2 step 5 — sort surviving
candidates by confidence descending, then run the greedy keep/discard pass.
The fuel argument of `nmsKeep` (the input length, which only shrinks across
iterations) makes the recursion structural; the fuel is never exhausted. -/
def suppress (iouThreshold : ℚ) (dets : List Detection) : List Detection :=
  let sorted := List.insertionSort confGE dets
  nmsKeep iouThreshold sorted.length sorted

/-- Embedding of `postprocess_detections` (`defect_detection_service.py:91-165`), taking the
already-transposed candidate rows `predictions[0]` (each row is 4 box
parameters followed by the per-class scores). The final suppression is the
spec-modelled `suppress` with the source's hard-coded IoU threshold `0.4`. -/
def postprocess_detections (rows : List (List ℚ)) (original_size : ℕ × ℕ)
    (input_size : ℕ × ℕ) (conf_threshold : ℚ) : List Detection :=
  let ow := original_size.1
  let oh := original_size.2
  let scale_x : ℚ := (ow : ℚ) / (input_size.1 : ℚ)
  let scale_y : ℚ := (oh : ℚ) / (input_size.2 : ℚ)
  let detections := rows.filterMap (decodeCandidate scale_x scale_y ow oh conf_threshold)
  suppress (2/5) detections

/-! ## Broadcaster lifecycle (`websocket_service.WebSocketManager`) -/

/-- The mutable fields of `WebSocketManager`, plus an explicit count of
stop-streaming tasks that `disconnect` has spawned with
`asyncio.create_task` but that have not yet run. -/
structure WSState where
  active_connections : Finset ℕ
  is_streaming : Bool
  pending_stops : ℕ
deriving DecidableEq

/-- Embeds `WebSocketManager.connect` (`websocket_service.py:23-41`): add the channel
to the registry; if not streaming, `start_streaming` is awaited inline and
sets `is_streaming := True`. -/
def wsConnect (s : WSState) (c : ℕ) : WSState :=
  let s1 : WSState := { s with active_connections := insert c s.active_connections }
  if s1.is_streaming then s1 else { s1 with is_streaming := true }

/-- Embeds `WebSocketManager.disconnect` (`websocket_service.py:43-50`): discard the
channel; if the registry is now empty, spawn `stop_streaming` via
`asyncio.create_task` — the task is only scheduled, not awaited, so it is
recorded as pending. -/
def wsDisconnect (s : WSState) (c : ℕ) : WSState :=
  let s1 : WSState := { s with active_connections := s.active_connections.erase c }
  if s1.active_connections = ∅ then { s1 with pending_stops := s1.pending_stops + 1 }
  else s1

/-- Running one previously spawned `stop_streaming` task
(`websocket_service.py:87-100`): if not streaming it returns immediately,
otherwise it clears the flag and cancels-and-awaits the stream loop. -/
def wsRunStop (s : WSState) : WSState :=
  match s.pending_stops with
  | 0 => s
  | n + 1 =>
      let s1 : WSState := { s with pending_stops := n }
      if s1.is_streaming then { s1 with is_streaming := false } else s1

/-- An event-loop step: a client connects, a client disconnects, or the
scheduler runs one pending stop task. -/
inductive WSOp where
  | connect (c : ℕ)
  | disconnect (c : ℕ)
  | runStop
deriving DecidableEq, Repr

def wsStep (s : WSState) : WSOp → WSState
  | .connect c => wsConnect s c
  | .disconnect c => wsDisconnect s c
  | .runStop => wsRunStop s

/-- The initial `WebSocketManager` state (`__init__`). -/
def wsInit : WSState := ⟨∅, false, 0⟩

/-- Run a sequence of event-loop steps from the initial state. -/
def wsRun (ops : List WSOp) : WSState := ops.foldl wsStep wsInit

/-- Drain every pending stop task: the first pending stop clears the
streaming flag, the rest are no-ops. -/
def wsQuiesce (s : WSState) : WSState :=
  match s.pending_stops with
  | 0 => s
  | _ + 1 => { s with is_streaming := false, pending_stops := 0 }

/-- An attach or detach request from a client. -/
inductive ClientOp where
  | attach (c : ℕ)
  | detach (c : ℕ)
deriving DecidableEq, Repr

/-- Sequential (quiescent-between-operations) semantics: each attach/detach
runs to completion, including any stop task it spawned, before the next
operation starts. -/
def wsStepSeq (s : WSState) : ClientOp → WSState
  | .attach c => wsQuiesce (wsConnect s c)
  | .detach c => wsQuiesce (wsDisconnect s c)

/-- Run a sequence of attach/detach operations under the sequential
semantics, from the initial state. -/
def wsRunSeq (ops : List ClientOp) : WSState := ops.foldl wsStepSeq wsInit

/-- The quiescent-state invariant of the broadcaster: the streaming flag
holds exactly when the registry is non-empty, and no stop task is pending. -/
def WSInv (s : WSState) : Prop :=
  (s.is_streaming = true ↔ s.active_connections ≠ ∅) ∧ s.pending_stops = 0

/-! ## One broadcast pass (`WebSocketManager.broadcast`) -/

/-- Observable events of one broadcast pass: a payload sent to a connection,
or a connection removed from the registry. -/
inductive BEvent where
  | send (c : ℕ) (payload : String)
  | remove (c : ℕ)
deriving DecidableEq, Repr

/-- Modelled from the spec: `json.dumps` is an external library call; it is
modelled as some fixed injective-enough serialization of the key/value
pairs. Its content never matters, only that it is computed once per pass. -/
def jsonDumps (message : List (String × String)) : String :=
  "\x7b" ++ String.intercalate "," (message.map fun kv => kv.1 ++ ":" ++ kv.2) ++ "\x7d"

/-- Whether a broadcast-pass event is a send. -/
def BEvent.isSend : BEvent → Bool
  | .send _ _ => true
  | .remove _ => false

/-- Whether a broadcast-pass event is a registry removal. -/
def BEvent.isRemove : BEvent → Bool
  | .send _ _ => false
  | .remove _ => true

/-- Result of one broadcast pass: the ordered event trace and the registry
contents after the pass. -/
structure BroadcastResult where
  trace : List BEvent
  registry : List ℕ
deriving DecidableEq, Repr

/-- Embeds `WebSocketManager.broadcast` (`websocket_service.py:59-76`): serialize the
message once, iterate over a copy of the registry sending the same text to
each connection, collect connections whose send failed, and discard them
from the registry only after the iteration has finished. `sendOk c` tells
whether the transport send to `c` succeeds. -/
def broadcast (conns : List ℕ) (sendOk : ℕ → Bool) (message : List (String × String)) :
    BroadcastResult :=
  let message_text := jsonDumps message
  let snapshot := conns
  let sends := snapshot.map fun c => BEvent.send c message_text
  let disconnected := snapshot.filter fun c => !(sendOk c)
  { trace := sends ++ disconnected.map BEvent.remove
    registry := conns.filter fun c => sendOk c }

/-! ## The stream loop's waiting-message pacing (`_stream_loop`) -/

/-- One cycle of the no-frame branch bookkeeping of `_stream_loop`
(`websocket_service.py:110-139`): if a frame is available the wait counter
resets to 0 (and a video frame, not a waiting message, is broadcast);
otherwise the counter increments and a waiting message is pushed exactly
when `camera_wait_count % 10 == 1`. Returns the new counter and whether a
waiting message was pushed this cycle. Each cycle lasts 0.1 s
(`await asyncio.sleep(0.1)`), so 10 cycles make one second. -/
def waitStep (count : ℕ) (frameAvailable : Bool) : ℕ × Bool :=
  if frameAvailable then (0, false)
  else (count + 1, (count + 1) % 10 == 1)

/-- Run the stream loop over a per-cycle frame-availability pattern, starting
from wait counter `count`; returns, per cycle, whether a waiting message was
pushed. -/
def waitRun (count : ℕ) : List Bool → List Bool
  | [] => []
  | a :: rest =>
      let step := waitStep count a
      step.2 :: waitRun step.1 rest

/-! ## Frames and `CameraService.resize_to_square` -/

/-- A frame: pixel buffer addressed by (row, column), with its dimensions. -/
structure PFrame where
  height : ℕ
  width : ℕ
  pix : ℕ → ℕ → ℕ

/-- Modelled from the spec: `cv2.resize` is an external library collaborator;
modelled as a sampling resize that returns exactly the requested
`w × h` geometry, sampling source pixels proportionally. -/
def cv2Resize (f : PFrame) (w h : ℕ) : PFrame :=
  { height := h
    width := w
    pix := fun i j => f.pix (i * f.height / h) (j * f.width / w) }

/-- Embeds `CameraService.resize_to_square` (`camera_service.py:284-299`): if the
frame is wider than tall, crop `height` centered columns; otherwise crop
`width` centered rows; then resize to `size × size`. -/
def resize_to_square (f : PFrame) (size : ℕ) : PFrame :=
  if f.width > f.height then
    let start_x := (f.width - f.height) / 2
    let cropped : PFrame :=
      { height := f.height, width := f.height, pix := fun i j => f.pix i (start_x + j) }
    cv2Resize cropped size size
  else
    let start_y := (f.height - f.width) / 2
    let cropped : PFrame :=
      { height := f.width, width := f.width, pix := fun i j => f.pix (start_y + i) j }
    cv2Resize cropped size size

/-- The spec's wording of `normalizeToSquare` (§4.1): the crop is the centered
square whose side is the shorter dimension. Stated separately from the
source-derived `resize_to_square` so the two can be compared. -/
def centerSquareCrop (f : PFrame) : PFrame :=
  let side := min f.height f.width
  { height := side
    width := side
    pix := fun i j => f.pix ((f.height - side) / 2 + i) ((f.width - side) / 2 + j) }

/-- The spec's `normalizeToSquare(frame, targetSize)`: center-crop to a square
using the shorter dimension, then resize to `targetSize × targetSize`. -/
def normalizeToSquareSpec (f : PFrame) (targetSize : ℕ) : PFrame :=
  cv2Resize (centerSquareCrop f) targetSize targetSize

/-! ## Snapshot capture (`CameraService.capture_image` and
`capture_with_detection_analysis`) -/

/-- A detection as consumed by the capture path and the analysis step: the
dictionary keys `class_name`, `confidence` and `bbox` that
`capture_with_detection_analysis` reads. -/
structure CapDet where
  class_name : String
  confidence : ℚ
  bbox : List ℤ
deriving DecidableEq, Repr

/-- The `detection_results` dictionary stored in a capture result: either the
normal shape with a `"detections"` list (`camera_service.py:176-180` and the
test fallback at `203-211`), or the error shape `{"error": msg}` produced
when detection raises (`camera_service.py:184`). -/
inductive DetectionResults where
  | results (detections : List CapDet)
  | error (msg : String)
deriving DecidableEq, Repr

/-- The dictionary returned by `capture_image` — every return path populates
all five keys. -/
structure CaptureResult where
  success : Bool
  message : String
  filepath : Option String
  base64_image : Option String
  detection_results : Option DetectionResults
deriving DecidableEq, Repr

/-- The environment a call to `capture_image` runs against: the published
frame, the state of the detector, and the outcomes of the external
collaborators (the detector run, the `cv2.imwrite` save, the base64
encoder, and any exception raised inside the `try` body, which the
`except Exception` handler turns into a structured error result). -/
structure CaptureEnv where
  current_frame : Option PFrame
  auto_timestamp : String
  captures_dir : String
  detector_loaded : Bool
  detection_enabled : Bool
  detect_outcome : Except String (List CapDet)
  save_ok : Bool
  encode_base64 : String
  unexpected : Option String

/-- Embeds `CameraService.capture_image` (`camera_service.py:134-250`). -/
def capture_image (env : CaptureEnv) (filename : Option String)
    (apply_detection : Bool) : CaptureResult :=
  match env.unexpected with
  | some e =>
      { success := false, message := "Capture error: " ++ e, filepath := none,
        base64_image := none, detection_results := none }
  | none =>
      match env.current_frame with
      | none =>
          { success := false, message := "No frame available", filepath := none,
            base64_image := none, detection_results := none }
      | some frame =>
          let fname := filename.getD ("capture_" ++ env.auto_timestamp ++ ".jpg")
          let filepath := env.captures_dir ++ "/" ++ fname
          let square_frame := resize_to_square frame 640
          let detection_results : Option DetectionResults :=
            if apply_detection && env.detection_enabled && env.detector_loaded then
              match env.detect_outcome with
              | .ok dets => some (.results dets)
              | .error e => some (.error e)
            else if apply_detection && env.detection_enabled then
              let h := square_frame.height
              let w := square_frame.width
              some (.results [{ class_name := "test_defect", confidence := 9/10,
                                bbox := [(w / 4 : ℕ), (h / 4 : ℕ),
                                         (3 * w / 4 : ℕ), (3 * h / 4 : ℕ)] }])
            else none
          if env.save_ok then
            { success := true, message := "Image saved as " ++ fname,
              filepath := some filepath, base64_image := some env.encode_base64,
              detection_results := detection_results }
          else
            { success := false, message := "Failed to save image", filepath := none,
              base64_image := none, detection_results := none }

/-- The `defects_by_type` dictionary built by the loop at
`camera_service.py:333-336`: start empty, and for each detection bump the
count stored under its `class_name` (`get(type, 0) + 1`). -/
def defectsByType (dets : List CapDet) : String → ℕ :=
  dets.foldl (fun acc d => fun t => if t = d.class_name then acc t + 1 else acc t)
    (fun _ => 0)

/-- The `analysis` summary added at `camera_service.py:338-344`. -/
structure CapAnalysis where
  total_defects : ℕ
  defects_by_type : String → ℕ
  has_critical_defects : Bool

/-- Result of `capture_with_detection_analysis`: the capture result plus the
optional analysis summary. -/
structure AnalysisResult where
  capture : CaptureResult
  analysis : Option CapAnalysis

/-- Embeds `CameraService.capture_with_detection_analysis`
(`camera_service.py:318-349`): capture with detection, then, when the
capture succeeded and its (truthy) detection results carry a `"detections"`
list, attach the analysis summary. -/
def capture_with_detection_analysis (env : CaptureEnv) (filename : Option String) :
    AnalysisResult :=
  let result := capture_image env filename true
  match result.success, result.detection_results with
  | true, some (.results dets) =>
      { capture := result
        analysis := some
          { total_defects := dets.length
            defects_by_type := defectsByType dets
            has_critical_defects := dets.any fun d => decide ((8/10 : ℚ) < d.confidence) } }
  | _, _ => { capture := result, analysis := none }

/-! ## Concrete inputs used by witnesses and counterexamples -/

/-- A synthetic model output with one candidate whose raw box width and
height are negative: center (100,100), width -2, height -2, one class with
score 0.9. -/
def cexRows : List (List ℚ) := [[100, 100, -2, -2, 9/10]]

/-- A well-formed synthetic model output: one candidate centered at
(320,320) with a 20×20 box and one class scored 0.9. -/
def witRows : List (List ℚ) := [[320, 320, 20, 20, 9/10]]

/-- The detection that decoding `witRows` at 640×640 produces. -/
def witDet : Detection :=
  { x1 := 310, y1 := 310, x2 := 330, y2 := 330, confidence := 9/10,
    class_id := 0, class_name := "short_circuit", color := (0, 0, 255) }

/-- A concrete 480×640 frame. -/
def witFrame : PFrame := { height := 480, width := 640, pix := fun i j => i + j }

/-- Environment for a capture with no model loaded but detection enabled —
the configuration `CameraService.__init__` produces when the model file is
absent (`defect_detector = None`, `detection_enabled = True`). -/
def envNoModel : CaptureEnv :=
  { current_frame := some witFrame
    auto_timestamp := "20251012_120000"
    captures_dir := "static/captures"
    detector_loaded := false
    detection_enabled := true
    detect_outcome := .error "unused"
    save_ok := true
    encode_base64 := "jpegbytes"
    unexpected := none }

/-- Environment in which no frame has been published yet. -/
def envNoFrame : CaptureEnv :=
  { envNoModel with current_frame := none }

/-- One concrete detector output: a single crack at confidence 0.9. -/
def witCapDets : List CapDet :=
  [{ class_name := "crack", confidence := 9/10, bbox := [1, 2, 3, 4] }]

/-- Environment with a loaded detector whose run finds `witCapDets`. -/
def envDetect : CaptureEnv :=
  { envNoModel with
    detector_loaded := true
    detect_outcome := .ok witCapDets }

/-- A concrete transport outcome for a broadcast pass: the send to
connection 2 fails, all others succeed. -/
def bcastOk : ℕ → Bool := fun c => c != 2

/-- A concrete message for a broadcast pass. -/
def bcastMsg : List (String × String) := [("type", "video_frame")]

/-! # Theorems -/

/-! ## Non-maximum suppression lemmas -/

theorem nmsKeep_sublist (thr : ℚ) :
    ∀ (fuel : ℕ) (l : List Detection), List.Sublist (nmsKeep thr fuel l) l
  | _, [] => by cases ‹ℕ› <;> simp [nmsKeep]
  | 0, _ :: _ => by simp [nmsKeep]
  | fuel + 1, d :: rest => by
      rw [nmsKeep]
      exact List.Sublist.cons₂ d
        ((nmsKeep_sublist thr fuel _).trans (List.filter_sublist rest))

theorem nmsKeep_pairwise (thr : ℚ) :
    ∀ (fuel : ℕ) (l : List Detection),
      List.Pairwise (fun a b => iou a b ≤ thr) (nmsKeep thr fuel l)
  | _, [] => by cases ‹ℕ› <;> simp [nmsKeep]
  | 0, _ :: _ => by simp [nmsKeep]
  | fuel + 1, d :: rest => by
      rw [nmsKeep]
      refine List.Pairwise.cons ?_ (nmsKeep_pairwise thr fuel _)
      intro b hb
      have hb' := (nmsKeep_sublist thr fuel _).subset hb
      exact of_decide_eq_true (List.mem_filter.mp hb').2

theorem nmsKeep_eq_self (thr : ℚ) :
    ∀ (fuel : ℕ) (l : List Detection), l.length ≤ fuel →
      List.Pairwise (fun a b => iou a b ≤ thr) l → nmsKeep thr fuel l = l
  | _, [], _, _ => by cases ‹ℕ› <;> simp [nmsKeep]
  | 0, _ :: _, hl, _ => by simp at hl
  | fuel + 1, d :: rest, hl, h => by
      rw [nmsKeep]
      have hAll : ∀ e ∈ rest, decide (iou d e ≤ thr) = true := fun e he =>
        decide_eq_true (List.rel_of_pairwise_cons h he)
      rw [List.filter_eq_self.mpr hAll,
        nmsKeep_eq_self thr fuel rest (by simpa using hl) h.of_cons]

theorem mem_of_mem_suppress {thr : ℚ} {l : List Detection} {d : Detection}
    (h : d ∈ suppress thr l) : d ∈ l := by
  unfold suppress at h
  exact (List.mem_insertionSort confGE).mp ((nmsKeep_sublist thr _ _).subset h)

/-- C4: the suppression step (sort candidates by confidence descending, then
greedily keep the highest-confidence remaining box and discard every other
box whose IoU with it exceeds the threshold) is idempotent: re-running it on
its own output returns it unchanged, for every candidate list and every IoU
threshold. -/
theorem claim_C4_suppression_idempotent (iouThreshold : ℚ) (dets : List Detection) :
    suppress iouThreshold (suppress iouThreshold dets) = suppress iouThreshold dets := by
  simp only [suppress]
  have hs : List.Sorted confGE
      (nmsKeep iouThreshold (List.insertionSort confGE dets).length
        (List.insertionSort confGE dets)) :=
    List.Pairwise.sublist (nmsKeep_sublist iouThreshold _ _)
      (List.sorted_insertionSort confGE _)
  rw [List.Sorted.insertionSort_eq hs]
  exact nmsKeep_eq_self iouThreshold _ _ le_rfl (nmsKeep_pairwise iouThreshold _ _)

/-! ## Decoding bounds lemmas -/

theorem clampTo_nonneg (v : ℤ) (b : ℕ) : 0 ≤ clampTo v b := le_max_left _ _

theorem clampTo_le_bound (v : ℤ) (b : ℕ) : clampTo v b ≤ (b : ℤ) :=
  max_le (Int.natCast_nonneg b) (min_le_right v _)

theorem clampTo_mono {v w : ℤ} (b : ℕ) (h : v ≤ w) : clampTo v b ≤ clampTo w b :=
  max_le_max le_rfl (min_le_min h le_rfl)

theorem pyTrunc_mono {a b : ℚ} (h : a ≤ b) : pyTrunc a ≤ pyTrunc b := by
  unfold pyTrunc
  rcases le_or_lt 0 a with ha | ha
  · rw [if_pos ha, if_pos (le_trans ha h)]
    exact Int.floor_le_floor h
  · rw [if_neg (not_le.mpr ha)]
    rcases le_or_lt 0 b with hb | hb
    · rw [if_pos hb]
      exact le_trans (Int.ceil_le.mpr (by exact_mod_cast ha.le)) (Int.floor_nonneg.mpr hb)
    · rw [if_neg (not_le.mpr hb)]
      exact Int.ceil_le_ceil h

theorem decodeCandidate_spec {scale_x scale_y : ℚ} {ow oh : ℕ} {thr : ℚ}
    {row : List ℚ} {d : Detection} (hsx : 0 ≤ scale_x) (hsy : 0 ≤ scale_y)
    (h : decodeCandidate scale_x scale_y ow oh thr row = some d) :
    (0 ≤ d.x1 ∧ d.x1 ≤ (ow : ℤ) ∧ 0 ≤ d.x2 ∧ d.x2 ≤ (ow : ℤ) ∧
     0 ≤ d.y1 ∧ d.y1 ≤ (oh : ℤ) ∧ 0 ≤ d.y2 ∧ d.y2 ≤ (oh : ℤ)) ∧
    thr ≤ d.confidence ∧
    (0 ≤ row.getD 2 0 → d.x1 ≤ d.x2) ∧ (0 ≤ row.getD 3 0 → d.y1 ≤ d.y2) := by
  simp only [decodeCandidate] at h
  split at h
  case isFalse => exact absurd h (by simp)
  case isTrue hc =>
    injection h with h
    subst h
    refine ⟨⟨clampTo_nonneg _ _, clampTo_le_bound _ _, clampTo_nonneg _ _,
      clampTo_le_bound _ _, clampTo_nonneg _ _, clampTo_le_bound _ _,
      clampTo_nonneg _ _, clampTo_le_bound _ _⟩, hc.1, ?_, ?_⟩
    · intro hw
      exact clampTo_mono _ (pyTrunc_mono
        (mul_le_mul_of_nonneg_right (by linarith) hsx))
    · intro hh
      exact clampTo_mono _ (pyTrunc_mono
        (mul_le_mul_of_nonneg_right (by linarith) hsy))

/-- C1 (amended): every detection returned by `postprocess_detections` has
each box coordinate clamped into range — `0 ≤ x1 ≤ width`, `0 ≤ x2 ≤ width`,
`0 ≤ y1 ≤ height`, `0 ≤ y2 ≤ height` — and confidence not below the
configured threshold; and when every candidate's raw box width and height
are nonnegative, additionally `x1 ≤ x2` and `y1 ≤ y2`. (The unconditional
`x1 ≤ x2` of the original claim fails: see the counterexample.) -/
theorem claim_C1_postprocess_boxes (rows : List (List ℚ)) (ow oh iw ih : ℕ)
    (thr : ℚ) (d : Detection)
    (hd : d ∈ postprocess_detections rows (ow, oh) (iw, ih) thr) :
    (0 ≤ d.x1 ∧ d.x1 ≤ (ow : ℤ) ∧ 0 ≤ d.x2 ∧ d.x2 ≤ (ow : ℤ) ∧
     0 ≤ d.y1 ∧ d.y1 ≤ (oh : ℤ) ∧ 0 ≤ d.y2 ∧ d.y2 ≤ (oh : ℤ)) ∧
    thr ≤ d.confidence ∧
    ((∀ row ∈ rows, 0 ≤ row.getD 2 0 ∧ 0 ≤ row.getD 3 0) →
      d.x1 ≤ d.x2 ∧ d.y1 ≤ d.y2) := by
  simp only [postprocess_detections] at hd
  obtain ⟨row, hrow, hdec⟩ := List.mem_filterMap.mp (mem_of_mem_suppress hd)
  have hsx : (0 : ℚ) ≤ ((ow, oh).1 : ℚ) / ((iw, ih).1 : ℚ) :=
    div_nonneg (Nat.cast_nonneg _) (Nat.cast_nonneg _)
  have hsy : (0 : ℚ) ≤ ((ow, oh).2 : ℚ) / ((iw, ih).2 : ℚ) :=
    div_nonneg (Nat.cast_nonneg _) (Nat.cast_nonneg _)
  obtain ⟨hb, hconf, hx, hy⟩ := decodeCandidate_spec hsx hsy hdec
  exact ⟨hb, hconf, fun hall => ⟨hx (hall row hrow).1, hy (hall row hrow).2⟩⟩

/-- C1 counterexample: on the synthetic model output `cexRows`, whose single
candidate has raw width -2, the returned detection has `x2 < x1`
(x1 = 101, x2 = 99), refuting `0 ≤ x1 ≤ x2 ≤ width` as stated. -/
theorem claim_C1_counterexample :
    ∃ d ∈ postprocess_detections cexRows (640, 640) (640, 640) (1/2), d.x2 < d.x1 := by
  with_unfolding_all decide

/-- C1 witness: the amended theorem applied to the concrete well-formed
output `witRows` at frame size 640×640 and threshold 0.5, instantiated at
the detection it returns. -/
theorem claim_C1_witness :
    (0 ≤ witDet.x1 ∧ witDet.x1 ≤ (640 : ℤ) ∧ 0 ≤ witDet.x2 ∧ witDet.x2 ≤ (640 : ℤ) ∧
     0 ≤ witDet.y1 ∧ witDet.y1 ≤ (640 : ℤ) ∧ 0 ≤ witDet.y2 ∧ witDet.y2 ≤ (640 : ℤ)) ∧
    (1/2 : ℚ) ≤ witDet.confidence ∧ (witDet.x1 ≤ witDet.x2 ∧ witDet.y1 ≤ witDet.y2) := by
  have h := claim_C1_postprocess_boxes witRows 640 640 640 640 (1/2) witDet
    (by with_unfolding_all decide)
  exact ⟨h.1, h.2.1, h.2.2 (by with_unfolding_all decide)⟩

/-! ## Broadcaster lifecycle theorems -/

/-- C2: the code-level behavior at the failing input. Starting from the
empty registry, connect client 0 and then disconnect it: when `disconnect`
returns, the registry is empty but `is_streaming` is still `True` and one
`stop_streaming` task has been spawned with `asyncio.create_task` without
ever being awaited — the Streaming→Idle transition has not happened when
the detach is reported complete, so the broadcast loop is (transiently or,
if the task is never scheduled, permanently) orphaned. -/
theorem claim_C2_detach_not_awaited :
    (wsRun [.connect 0, .disconnect 0]).active_connections = ∅ ∧
    (wsRun [.connect 0, .disconnect 0]).is_streaming = true ∧
    (wsRun [.connect 0, .disconnect 0]).pending_stops = 1 := by
  decide

/-- C3 counterexample: the claim's quiescent invariant fails under
interleaving. Connect client 1, disconnect it (spawning a pending stop
task), let client 2 connect before that task runs (`connect` sees
`is_streaming` still `True` and does not restart), then let the pending
stop task run: the resulting state is quiescent (no pending task), has a
non-empty registry `{2}`, yet `is_streaming = False`. -/
theorem claim_C3_counterexample :
    (wsRun [.connect 1, .disconnect 1, .connect 2, .runStop]).pending_stops = 0 ∧
    (wsRun [.connect 1, .disconnect 1, .connect 2, .runStop]).active_connections ≠ ∅ ∧
    (wsRun [.connect 1, .disconnect 1, .connect 2, .runStop]).is_streaming = false := by
  decide

theorem wsConnect_streaming (s : WSState) (c : ℕ) : (wsConnect s c).is_streaming = true := by
  obtain ⟨conns, streaming, pending⟩ := s
  cases streaming <;> rfl

theorem wsConnect_conns (s : WSState) (c : ℕ) :
    (wsConnect s c).active_connections = insert c s.active_connections := by
  obtain ⟨conns, streaming, pending⟩ := s
  cases streaming <;> rfl

theorem wsConnect_pending (s : WSState) (c : ℕ) :
    (wsConnect s c).pending_stops = s.pending_stops := by
  obtain ⟨conns, streaming, pending⟩ := s
  cases streaming <;> rfl

theorem wsQuiesce_of_pending_zero {s : WSState} (h : s.pending_stops = 0) :
    wsQuiesce s = s := by
  obtain ⟨conns, streaming, pending⟩ := s
  simp only at h
  subst h
  rfl

theorem wsInv_init : WSInv wsInit := by
  constructor
  · simp [wsInit]
  · rfl

theorem wsInv_step (s : WSState) (op : ClientOp) (h : WSInv s) : WSInv (wsStepSeq s op) := by
  obtain ⟨hiff, hp⟩ := h
  cases op with
  | attach c =>
      have hq : wsStepSeq s (.attach c) = wsConnect s c := by
        simp only [wsStepSeq]
        exact wsQuiesce_of_pending_zero (by rw [wsConnect_pending]; exact hp)
      rw [hq]
      refine ⟨?_, by rw [wsConnect_pending]; exact hp⟩
      rw [wsConnect_streaming, wsConnect_conns]
      simp [Finset.insert_ne_empty]
  | detach c =>
      simp only [wsStepSeq, wsDisconnect]
      by_cases he : s.active_connections.erase c = ∅
      · simp only [he, if_pos]
        refine ⟨?_, ?_⟩ <;> simp [wsQuiesce, he]
      · simp only [he, if_neg, if_false]
        have hne : s.active_connections ≠ ∅ := by
          intro h0
          exact he (by rw [h0]; exact Finset.erase_empty c)
        have hstream : s.is_streaming = true := hiff.mpr hne
        rw [wsQuiesce_of_pending_zero (by exact hp)]
        exact ⟨by simpa [hstream] using he, hp⟩

theorem wsInv_run (ops : List ClientOp) : WSInv (wsRunSeq ops) := by
  suffices h : ∀ s, WSInv s → WSInv (ops.foldl wsStepSeq s) from h wsInit wsInv_init
  induction ops with
  | nil => exact fun s hs => hs
  | cons op rest ih => exact fun s hs => ih _ (wsInv_step s op hs)

/-- C3 (amended): under the sequential semantics — every stop task spawned
by a detach runs to completion before the next attach/detach starts — every
reachable state satisfies: the streaming flag holds iff the registry is
non-empty; attaching to an empty registry turns streaming from false to
true (the one Idle→Streaming transition) while attaching to a non-empty
registry leaves the flag unchanged; detaching the last connection turns
streaming from true to false (the one Streaming→Idle transition); attaching
an already-present connection and detaching an absent one leave the state
exactly unchanged. (Without the sequential restriction the invariant fails:
see the counterexample, where an attach interleaves before a pending stop
task runs.) -/
theorem claim_C3_lifecycle (ops : List ClientOp) (c : ℕ) :
    ((wsRunSeq ops).is_streaming = true ↔ (wsRunSeq ops).active_connections ≠ ∅) ∧
    ((wsRunSeq ops).active_connections = ∅ →
      (wsRunSeq ops).is_streaming = false ∧
      (wsStepSeq (wsRunSeq ops) (.attach c)).is_streaming = true) ∧
    ((wsRunSeq ops).active_connections ≠ ∅ →
      (wsStepSeq (wsRunSeq ops) (.attach c)).is_streaming = (wsRunSeq ops).is_streaming) ∧
    ((wsRunSeq ops).active_connections = {c} →
      (wsRunSeq ops).is_streaming = true ∧
      (wsStepSeq (wsRunSeq ops) (.detach c)).is_streaming = false ∧
      (wsStepSeq (wsRunSeq ops) (.detach c)).active_connections = ∅) ∧
    (c ∈ (wsRunSeq ops).active_connections →
      wsStepSeq (wsRunSeq ops) (.attach c) = wsRunSeq ops) ∧
    (c ∉ (wsRunSeq ops).active_connections →
      wsStepSeq (wsRunSeq ops) (.detach c) = wsRunSeq ops) := by
  obtain ⟨hiff, hp⟩ := wsInv_run ops
  set s := wsRunSeq ops with hs
  have hattach : wsStepSeq s (.attach c) = wsConnect s c := by
    simp only [wsStepSeq]
    exact wsQuiesce_of_pending_zero (by rw [wsConnect_pending]; exact hp)
  refine ⟨hiff, ?_, ?_, ?_, ?_, ?_⟩
  · intro h0
    refine ⟨?_, by rw [hattach, wsConnect_streaming]⟩
    rcases Bool.eq_false_or_eq_true s.is_streaming with hb | hb
    · exact absurd (hiff.mp hb) (by simp [h0])
    · exact hb
  · intro h0
    rw [hattach, wsConnect_streaming, hiff.mpr h0]
  · intro hsing
    have hstream : s.is_streaming = true :=
      hiff.mpr (by rw [hsing]; exact Finset.singleton_ne_empty c)
    refine ⟨hstream, ?_, ?_⟩ <;>
    · obtain ⟨conns, streaming, pending⟩ := s
      simp only at hsing hstream hp
      subst hsing hstream hp
      simp [wsStepSeq, wsDisconnect, Finset.erase_singleton, wsQuiesce]
  · intro hc
    have hstream : s.is_streaming = true := hiff.mpr (Finset.ne_empty_of_mem hc)
    rw [hattach]
    obtain ⟨conns, streaming, pending⟩ := s
    simp only at hc hstream hp
    subst hstream hp
    simp [wsConnect, Finset.insert_eq_self.mpr hc]
  · intro hc
    have herase : s.active_connections.erase c = s.active_connections :=
      Finset.erase_eq_self.mpr hc
    by_cases h0 : s.active_connections = ∅
    · have hstream : s.is_streaming = false := by
        rcases Bool.eq_false_or_eq_true s.is_streaming with hb | hb
        · exact absurd (hiff.mp hb) (by simp [h0])
        · exact hb
      obtain ⟨conns, streaming, pending⟩ := s
      simp only at h0 hstream hp
      subst h0 hstream hp
      simp [wsStepSeq, wsDisconnect, Finset.erase_empty, wsQuiesce]
    · have hstream : s.is_streaming = true := hiff.mpr h0
      obtain ⟨conns, streaming, pending⟩ := s
      simp only at herase h0 hstream hp
      subst hstream hp
      simp [wsStepSeq, wsDisconnect, herase, h0, wsQuiesce]

/-- C3 witness: the amended lifecycle theorem applied at concrete states —
re-attaching the already-present connection 0 is a no-op, attaching to the
empty registry starts streaming, and detaching the only connection stops
it. -/
theorem claim_C3_witness :
    (wsStepSeq (wsRunSeq [ClientOp.attach 0]) (.attach 0) = wsRunSeq [ClientOp.attach 0]) ∧
    (wsStepSeq (wsRunSeq []) (.attach 0)).is_streaming = true ∧
    (wsStepSeq (wsRunSeq [ClientOp.attach 0]) (.detach 0)).is_streaming = false :=
  ⟨(claim_C3_lifecycle [ClientOp.attach 0] 0).2.2.2.2.1 (by decide),
   ((claim_C3_lifecycle [] 0).2.1 (by decide)).2,
   ((claim_C3_lifecycle [ClientOp.attach 0] 0).2.2.2.1 (by decide)).2.1⟩

/-! ## Frame normalization -/

/-- C5: for every frame with width ≥ 1 and height ≥ 1 and every target
size, `resize_to_square` returns a frame of exactly targetSize×targetSize,
and it equals the spec's `normalizeToSquare` (center-crop to a square on
the shorter dimension, then resize), in both the w>h and the h≥w case. -/
theorem claim_C5_resize_to_square (f : PFrame) (targetSize : ℕ)
    (hw : 1 ≤ f.width) (hh : 1 ≤ f.height) :
    (resize_to_square f targetSize).height = targetSize ∧
    (resize_to_square f targetSize).width = targetSize ∧
    resize_to_square f targetSize = normalizeToSquareSpec f targetSize := by
  have hmain : resize_to_square f targetSize = normalizeToSquareSpec f targetSize := by
    simp only [resize_to_square, normalizeToSquareSpec, centerSquareCrop, cv2Resize]
    by_cases hgt : f.height < f.width
    · have hmin : min f.height f.width = f.height := Nat.min_eq_left hgt.le
      rw [if_pos hgt]
      simp only [hmin, PFrame.mk.injEq, Nat.sub_self, Nat.zero_div, Nat.zero_add]
    · have hmin : min f.height f.width = f.width := Nat.min_eq_right (Nat.le_of_not_lt hgt)
      rw [if_neg hgt]
      simp only [hmin, PFrame.mk.injEq, Nat.sub_self, Nat.zero_div, Nat.zero_add]
  refine ⟨?_, ?_, hmain⟩ <;> rw [hmain] <;> rfl

/-- C5 witness: the theorem applied to the concrete 480×640 frame
`witFrame` with target size 64. -/
theorem claim_C5_witness :
    (resize_to_square witFrame 64).height = 64 ∧
    (resize_to_square witFrame 64).width = 64 ∧
    resize_to_square witFrame 64 = normalizeToSquareSpec witFrame 64 :=
  claim_C5_resize_to_square witFrame 64 (by decide) (by decide)

/-! ## Broadcast pass -/

/-- C6: in one broadcast pass over registry `conns`: every connection
attached at the start of the pass is sent the single serialized payload
(once per occurrence); every send event in the pass carries that same
payload; the registry afterwards is exactly the start-of-pass registry
minus the connections whose send failed, removed only after the pass (the
trace is all of its send events followed by all of its removal events, so
the registry is never mutated while it is being iterated). -/
theorem claim_C6_broadcast_pass (conns : List ℕ) (sendOk : ℕ → Bool)
    (message : List (String × String)) :
    (∀ c ∈ conns, (broadcast conns sendOk message).trace.count
        (BEvent.send c (jsonDumps message)) = conns.count c) ∧
    (∀ c p, BEvent.send c p ∈ (broadcast conns sendOk message).trace →
        p = jsonDumps message ∧ c ∈ conns) ∧
    (broadcast conns sendOk message).registry = conns.filter (fun c => sendOk c) ∧
    (∀ c, BEvent.remove c ∈ (broadcast conns sendOk message).trace ↔
        c ∈ conns ∧ sendOk c = false) ∧
    (broadcast conns sendOk message).trace =
      (broadcast conns sendOk message).trace.filter BEvent.isSend ++
      (broadcast conns sendOk message).trace.filter BEvent.isRemove := by
  have hinj : Function.Injective (fun c : ℕ => BEvent.send c (jsonDumps message)) := by
    intro a b h
    injection h
  refine ⟨?_, ?_, rfl, ?_, ?_⟩
  · intro c _
    simp only [broadcast, List.count_append]
    rw [List.count_map_of_injective conns _ hinj c]
    have hzero : (List.count (BEvent.send c (jsonDumps message))
        ((conns.filter fun x => !(sendOk x)).map BEvent.remove)) = 0 := by
      rw [List.count_eq_zero]
      intro hmem
      obtain ⟨x, _, hx⟩ := List.mem_map.mp hmem
      exact BEvent.noConfusion hx
    omega
  · intro c p hmem
    simp only [broadcast, List.mem_append] at hmem
    rcases hmem with hmem | hmem
    · obtain ⟨x, hx, hxe⟩ := List.mem_map.mp hmem
      injection hxe with h1 h2
      exact ⟨h2.symm, h1 ▸ hx⟩
    · obtain ⟨x, _, hx⟩ := List.mem_map.mp hmem
      exact absurd hx (fun h => BEvent.noConfusion h)
  · intro c
    simp only [broadcast, List.mem_append]
    constructor
    · intro hmem
      rcases hmem with hmem | hmem
      · obtain ⟨x, _, hx⟩ := List.mem_map.mp hmem
        exact absurd hx (fun h => BEvent.noConfusion h)
      · obtain ⟨x, hx, hxe⟩ := List.mem_map.mp hmem
        injection hxe with h1
        obtain ⟨hxc, hxf⟩ := List.mem_filter.mp hx
        exact ⟨h1 ▸ hxc, h1 ▸ (Bool.not_eq_true' _).mp hxf⟩
    · intro ⟨hc, hf⟩
      refine Or.inr (List.mem_map.mpr ⟨c, List.mem_filter.mpr ⟨hc, ?_⟩, rfl⟩)
      rw [hf]
      rfl
  · have hS : (List.map (fun c => BEvent.send c (jsonDumps message)) conns).filter
        BEvent.isSend = List.map (fun c => BEvent.send c (jsonDumps message)) conns :=
      List.filter_eq_self.mpr (by
        intro e hmem
        obtain ⟨x, _, hx⟩ := List.mem_map.mp hmem
        rw [← hx]
        rfl)
    have hS0 : (List.map (fun c => BEvent.send c (jsonDumps message)) conns).filter
        BEvent.isRemove = [] :=
      List.filter_eq_nil_iff.mpr (by
        intro e hmem
        obtain ⟨x, _, hx⟩ := List.mem_map.mp hmem
        rw [← hx]
        simp [BEvent.isRemove])
    have hR : ((conns.filter fun c => !(sendOk c)).map BEvent.remove).filter
        BEvent.isRemove = (conns.filter fun c => !(sendOk c)).map BEvent.remove :=
      List.filter_eq_self.mpr (by
        intro e hmem
        obtain ⟨x, _, hx⟩ := List.mem_map.mp hmem
        rw [← hx]
        rfl)
    have hR0 : ((conns.filter fun c => !(sendOk c)).map BEvent.remove).filter
        BEvent.isSend = [] :=
      List.filter_eq_nil_iff.mpr (by
        intro e hmem
        obtain ⟨x, _, hx⟩ := List.mem_map.mp hmem
        rw [← hx]
        simp [BEvent.isSend])
    simp only [broadcast, List.filter_append]
    rw [hS, hS0, hR, hR0, List.append_nil, List.nil_append]

/-- C6 witness: the pass theorem applied to the concrete registry [1,2,3]
where the send to connection 2 fails: connection 1 receives the payload
exactly once, the registry afterwards is [1,3], and connection 2 is
removed. -/
theorem claim_C6_witness :
    (broadcast [1, 2, 3] bcastOk bcastMsg).trace.count
        (BEvent.send 1 (jsonDumps bcastMsg)) = 1 ∧
    (broadcast [1, 2, 3] bcastOk bcastMsg).registry = [1, 3] ∧
    BEvent.remove 2 ∈ (broadcast [1, 2, 3] bcastOk bcastMsg).trace := by
  have h := claim_C6_broadcast_pass [1, 2, 3] bcastOk bcastMsg
  refine ⟨?_, ?_, ?_⟩
  · rw [h.1 1 (by decide)]
    decide
  · rw [h.2.2.1]
    decide
  · exact (h.2.2.2.1 2).mpr (by decide)

/-! ## Stream-loop waiting-message pacing -/

/-- C7 counterexample: with frame availability alternating every cycle
(frame absent on cycles 1,3,5,7,9 of a one-second window of ten 0.1 s
cycles), the wait counter is reset by each available cycle, so a waiting
message is pushed on every one of the five frame-less cycles — five
waiting messages within one second, refuting "at most once per second for
every pattern of frame availability". -/
theorem claim_C7_counterexample :
    1 < (waitRun 0
      [false, true, false, true, false, true, false, true, false, true]).count true := by
  decide

theorem waitRun_mod (c : ℕ) (l : List Bool) : waitRun c l = waitRun (c % 10) l := by
  induction l generalizing c with
  | nil => rfl
  | cons a rest ih =>
      cases a
      · show ((c + 1) % 10 == 1) :: waitRun (c + 1) rest =
          ((c % 10 + 1) % 10 == 1) :: waitRun (c % 10 + 1) rest
        rw [ih (c + 1), ih (c % 10 + 1), Nat.mod_add_mod]
      · show (false :: waitRun 0 rest : List Bool) = false :: waitRun 0 rest
        rfl

/-- C7 (amended): within any contiguous run of frame-less cycles the pacing
does hold — starting from any wait-counter value, any ten consecutive
cycles with no frame available (one second at the loop's 0.1 s cadence)
push exactly one waiting message. The once-per-second bound fails only
across runs, because an available frame resets the counter (see the
counterexample). -/
theorem claim_C7_waiting_once_per_second (c : ℕ) :
    (waitRun c (List.replicate 10 false)).count true = 1 := by
  rw [waitRun_mod]
  obtain ⟨r, hr, hre⟩ : ∃ r, r < 10 ∧ c % 10 = r :=
    ⟨c % 10, Nat.mod_lt _ (by norm_num), rfl⟩
  rw [hre]
  interval_cases r <;> decide

/-! ## Capture path -/

theorem append_length_ne {s t : String} (h : s.length ≠ 0) : s ++ t ≠ "" := by
  intro he
  have h2 := congrArg String.length he
  rw [String.length_append, show ("" : String).length = 0 from rfl] at h2
  omega

/-- C8: `capture_image` is total (the embedding is a total function: the
source wraps its whole body in `try`/`except Exception`, so every raised
exception is turned into a return value) and on every path — no frame
available, image-save failure, detection failure, internal exception — it
returns a structured result with an explicit boolean success flag and a
non-empty human-readable message. -/
theorem claim_C8_capture_structured (env : CaptureEnv) (filename : Option String)
    (apply_detection : Bool) :
    ((capture_image env filename apply_detection).message ≠ "") ∧
    (∀ e, env.unexpected = some e →
      (capture_image env filename apply_detection).success = false ∧
      (capture_image env filename apply_detection).message = "Capture error: " ++ e) ∧
    (env.unexpected = none → env.current_frame = none →
      (capture_image env filename apply_detection).success = false ∧
      (capture_image env filename apply_detection).message = "No frame available") ∧
    (env.unexpected = none → env.current_frame ≠ none → env.save_ok = false →
      (capture_image env filename apply_detection).success = false ∧
      (capture_image env filename apply_detection).message = "Failed to save image") ∧
    (env.unexpected = none → env.current_frame ≠ none → env.save_ok = true →
      (capture_image env filename apply_detection).success = true) := by
  obtain ⟨fr, ts, dir, dl, de, outcome, sv, b64, unexp⟩ := env
  refine ⟨?_, ?_, ?_, ?_, ?_⟩
  · cases unexp with
    | some e => exact append_length_ne (by decide)
    | none =>
        cases fr with
        | none => simp [capture_image]
        | some f =>
            cases sv
            · simp [capture_image]
            · exact append_length_ne (by decide)
  · intro e he
    simp only at he
    subst he
    exact ⟨rfl, rfl⟩
  · intro hu hf
    simp only at hu hf
    subst hu
    subst hf
    exact ⟨rfl, rfl⟩
  · intro hu hf hsv
    simp only at hu hf hsv
    subst hu
    subst hsv
    obtain ⟨f, rfl⟩ := Option.ne_none_iff_exists'.mp hf
    exact ⟨rfl, rfl⟩
  · intro hu hf hsv
    simp only at hu hf hsv
    subst hu
    subst hsv
    obtain ⟨f, rfl⟩ := Option.ne_none_iff_exists'.mp hf
    rfl

/-- C8 witness: the theorem at the concrete no-frame environment — the
caller gets `success = False` with the message "No frame available". -/
theorem claim_C8_witness :
    (capture_image envNoFrame none true).success = false ∧
    (capture_image envNoFrame none true).message = "No frame available" :=
  (claim_C8_capture_structured envNoFrame none true).2.2.1 rfl rfl

set_option maxRecDepth 8000 in
/-- C9: the code's behavior at the failing input. With the source's default
arguments (`apply_detection=True`, `detection_enabled=True` from
`__init__`), a frame available and no model loaded
(`defect_detector is None`), the production capture path succeeds AND
fabricates a synthetic "test_defect" detection at confidence 0.9 with the
centered placeholder box — the simulation fallback runs by default rather
than being opt-in, contradicting the claim. -/
theorem claim_C9_test_box_by_default :
    (capture_image envNoModel none true).success = true ∧
    (capture_image envNoModel none true).detection_results =
      some (.results [{ class_name := "test_defect", confidence := 9/10,
                        bbox := [160, 160, 480, 480] }]) := by
  with_unfolding_all decide

theorem defectsByType_count (dets : List CapDet) (t : String) :
    defectsByType dets t = (dets.filter fun d => d.class_name == t).length := by
  suffices h : ∀ acc : String → ℕ,
      (dets.foldl (fun acc d => fun u => if u = d.class_name then acc u + 1 else acc u) acc) t
        = acc t + (dets.filter fun d => d.class_name == t).length by
    simpa [defectsByType] using h fun _ => 0
  induction dets with
  | nil =>
      intro acc
      simp
  | cons d rest ih =>
      intro acc
      simp only [List.foldl_cons, List.filter_cons]
      rw [ih _]
      by_cases hd : t = d.class_name
      · subst hd
        simp only [beq_self_eq_true, eq_self_iff_true, if_true, List.length_cons]
        omega
      · have hb : (d.class_name == t) = false :=
          beq_eq_false_iff_ne.mpr fun h => hd h.symm
        simp only [hb, Bool.false_eq_true, if_false, if_neg hd]

/-- C10: whenever a capture succeeds and its detection results carry a
detections list, `capture_with_detection_analysis` attaches an analysis in
which `total_defects` is the length of that list, `defects_by_type` maps
each class name to its number of occurrences in the list, and
`has_critical_defects` holds iff some detection has confidence strictly
greater than 0.8. -/
theorem claim_C10_analysis (env : CaptureEnv) (filename : Option String)
    (dets : List CapDet)
    (hsucc : (capture_image env filename true).success = true)
    (hdet : (capture_image env filename true).detection_results =
      some (.results dets)) :
    ∃ a, (capture_with_detection_analysis env filename).analysis = some a ∧
      a.total_defects = dets.length ∧
      (∀ t, a.defects_by_type t = (dets.filter fun d => d.class_name == t).length) ∧
      (a.has_critical_defects = true ↔ ∃ d ∈ dets, (8/10 : ℚ) < d.confidence) := by
  have hana : (capture_with_detection_analysis env filename).analysis =
      some { total_defects := dets.length
             defects_by_type := defectsByType dets
             has_critical_defects := dets.any fun d => decide ((8/10 : ℚ) < d.confidence) } := by
    simp only [capture_with_detection_analysis, hsucc, hdet]
  refine ⟨_, hana, rfl, fun t => defectsByType_count dets t, ?_⟩
  simp [List.any_eq_true]

/-- C10 witness: the analysis theorem at the concrete environment whose
detector reports one crack at confidence 0.9: the analysis exists, counts
one defect, maps "crack" to one occurrence, and flags a critical defect. -/
theorem claim_C10_witness :
    ∃ a, (capture_with_detection_analysis envDetect none).analysis = some a ∧
      a.total_defects = witCapDets.length ∧
      (∀ t, a.defects_by_type t = (witCapDets.filter fun d => d.class_name == t).length) ∧
      (a.has_critical_defects = true ↔ ∃ d ∈ witCapDets, (8/10 : ℚ) < d.confidence) :=
  claim_C10_analysis envDetect none witCapDets (by with_unfolding_all decide)
    (by with_unfolding_all decide)
